import Mathlib

/-!
# Verification of the weather-agent core (date normalization and forecast summarization)

Shallow embedding of `src/date_utils.py` and `src/src/core/weather_tools.py`.
Python strings are modelled as `String` / `List Char`, Python floats and JSON
numbers as `ℚ`, Python `datetime.date` as a `PyDate` structure (proleptic
Gregorian calendar), and raising `ValueError` as `Except String`.
-/

namespace WeatherAgent

/-! ## Character and string utilities (embedding of Python `str` primitives) -/

/-- ASCII whitespace as recognised by the Python functions `str.strip` and `\s`. -/
def isSpaceChar (c : Char) : Bool :=
  c = ' ' || c = '\t' || c = '\n' || c = '\r' || c = '\x0b' || c = '\x0c'

/-- ASCII decimal digit (Python `\d` / `str.isdigit` on ASCII input). -/
def isDigitChar (c : Char) : Bool :=
  48 ≤ c.toNat && c.toNat ≤ 57

/-- Embedding of Python `str.lower` (ASCII case folding, per character). -/
def pyLower (cs : List Char) : List Char :=
  cs.map Char.toLower

/-- Embedding of Python `str.strip()`: drop leading and trailing whitespace. -/
def pyStrip (cs : List Char) : List Char :=
  ((cs.dropWhile isSpaceChar).reverse.dropWhile isSpaceChar).reverse

/-- Test that `pat` is a prefix of `l` (Python `str.startswith`). -/
def startsWithL : List Char → List Char → Bool
  | [], _ => true
  | _ :: _, [] => false
  | a :: as, b :: bs => a == b && startsWithL as bs

/-- Test that `sub` occurs as a contiguous substring of `hay`
(the Python expression `sub in hay`). -/
def containsL (sub : List Char) : List Char → Bool
  | [] => sub.isEmpty
  | c :: rest => startsWithL sub (c :: rest) || containsL sub rest

/-- Fuel-driven removal of every occurrence of `pat` (Python
`str.replace` with an empty replacement, leftmost non-overlapping). -/
def removeSubAux (pat : List Char) : Nat → List Char → List Char
  | 0, l => l
  | _ + 1, [] => []
  | fuel + 1, c :: rest =>
    if startsWithL pat (c :: rest) && !pat.isEmpty then
      removeSubAux pat fuel (List.drop (pat.length - 1) rest)
    else
      c :: removeSubAux pat fuel rest

/-- Remove every occurrence of `pat` from `hay`. -/
def removeSub (pat hay : List Char) : List Char :=
  removeSubAux pat hay.length hay

/-- Decimal digits of a character list, most significant first
(Python `int(s)` on a digit string, leading zeros allowed). -/
def digitsToNat (ds : List Char) : Nat :=
  ds.foldl (fun a c => a * 10 + (c.toNat - 48)) 0

/-- The decimal digit character for `k < 10` (and a dummy otherwise). -/
def digitChar : Nat → Char
  | 0 => '0' | 1 => '1' | 2 => '2' | 3 => '3' | 4 => '4'
  | 5 => '5' | 6 => '6' | 7 => '7' | 8 => '8' | 9 => '9'
  | _ => '*'

/-- Fuel-driven decimal rendering of a natural number (no leading zeros). -/
def natDigitsAux : Nat → Nat → List Char
  | 0, _ => []
  | fuel + 1, n =>
    if n = 0 then []
    else natDigitsAux fuel (n / 10) ++ [digitChar (n % 10)]

/-- Decimal rendering of a natural number (Python `str(n)` for `n : int ≥ 0`). -/
def natDigits (n : Nat) : List Char :=
  if n = 0 then ['0'] else natDigitsAux n n

/-- Decimal rendering of an integer (Python `str(n)` for `n : int`). -/
def intDigits (n : Int) : List Char :=
  if n < 0 then '-' :: natDigits n.natAbs else natDigits n.natAbs

/-! ## Calendar model (embedding of Python `datetime.date`) -/

/-- A calendar date in the proleptic Gregorian calendar, as held by a Python
`datetime.date` (year, month, day). -/
structure PyDate where
  year : Nat
  month : Nat
  day : Nat
deriving DecidableEq, Repr

/-- Gregorian leap-year rule (Python `calendar.isleap`). -/
def isLeap (y : Nat) : Bool :=
  (y % 4 == 0 && y % 100 != 0) || y % 400 == 0

/-- Days in a month, parameterised by the leap flag; `0` for bad months. -/
def daysInMonthB (leap : Bool) : Nat → Nat
  | 1 => 31
  | 2 => if leap then 29 else 28
  | 3 => 31
  | 4 => 30
  | 5 => 31
  | 6 => 30
  | 7 => 31
  | 8 => 31
  | 9 => 30
  | 10 => 31
  | 11 => 30
  | 12 => 31
  | _ => 0

/-- Days in a month of a given year. -/
def daysInMonth (y m : Nat) : Nat :=
  daysInMonthB (isLeap y) m

/-- Days elapsed in the year before the first of the given month. -/
def daysBeforeMonthB (leap : Bool) : Nat → Nat
  | 1 => 0
  | 2 => 31
  | 3 => if leap then 60 else 59
  | 4 => if leap then 91 else 90
  | 5 => if leap then 121 else 120
  | 6 => if leap then 152 else 151
  | 7 => if leap then 182 else 181
  | 8 => if leap then 213 else 212
  | 9 => if leap then 244 else 243
  | 10 => if leap then 274 else 273
  | 11 => if leap then 305 else 304
  | 12 => if leap then 335 else 334
  | _ => 0

/-- A structurally valid `datetime.date` value (year `≥ 1`, real month/day). -/
def ValidDate (d : PyDate) : Prop :=
  1 ≤ d.year ∧ 1 ≤ d.month ∧ d.month ≤ 12 ∧ 1 ≤ d.day ∧ d.day ≤ daysInMonth d.year d.month

instance (d : PyDate) : Decidable (ValidDate d) := by
  unfold ValidDate; infer_instance

/-- Day count with `0001-01-01 ↦ 0` (proleptic Gregorian ordinal minus one;
Python `date.toordinal() - 1`). -/
def dayNumber (d : PyDate) : Nat :=
  365 * (d.year - 1) + (d.year - 1) / 4 - (d.year - 1) / 100 + (d.year - 1) / 400
    + daysBeforeMonthB (isLeap d.year) d.month + (d.day - 1)

/-- Weekday with Monday = 0 (Python `date.weekday()`); `0001-01-01` is a Monday. -/
def weekdayOf (d : PyDate) : Nat :=
  dayNumber d % 7

/-- The calendar day after `d` (Python `d + timedelta(days=1)`). -/
def nextDay (d : PyDate) : PyDate :=
  if d.day < daysInMonth d.year d.month then ⟨d.year, d.month, d.day + 1⟩
  else if d.month < 12 then ⟨d.year, d.month + 1, 1⟩
  else ⟨d.year + 1, 1, 1⟩

/-- Embedding of `d + timedelta(days=n)` for `n ≥ 0`. -/
def addDays (d : PyDate) (n : Nat) : PyDate :=
  match n with
  | 0 => d
  | k + 1 => nextDay (addDays d k)

/-- Zero-padded two-digit rendering (`%02d` for values `≤ 99`). -/
def pad2 (n : Nat) : List Char :=
  [digitChar (n / 10 % 10), digitChar (n % 10)]

/-- Zero-padded four-digit rendering (`%04d` for values `≤ 9999`). -/
def pad4 (n : Nat) : List Char :=
  [digitChar (n / 1000 % 10), digitChar (n / 100 % 10), digitChar (n / 10 % 10), digitChar (n % 10)]

/-- The characters of `d.isoformat()`: `YYYY-MM-DD`. -/
def isoChars (d : PyDate) : List Char :=
  pad4 d.year ++ '-' :: (pad2 d.month ++ '-' :: pad2 d.day)

/-- Embedding of Python `date.isoformat()`. -/
def isoformat (d : PyDate) : String :=
  String.mk (isoChars d)

/-! ## `date_utils.py` — date normalization -/

/-- Embedding of the regex prefix match of `normalize_date` against the
pattern `(\d+)\s+days?\s*time`, extracting the integer day count.
Greedy matching without backtracking is equivalent here because the
character classes of adjacent regex pieces are disjoint. -/
def daysTimeMatch (cs : List Char) : Option Nat :=
  let ds := cs.takeWhile isDigitChar
  let r1 := cs.dropWhile isDigitChar
  if ds.isEmpty then none
  else
    let ws := r1.takeWhile isSpaceChar
    let r2 := r1.dropWhile isSpaceChar
    if ws.isEmpty then none
    else if startsWithL ['d', 'a', 'y'] r2 then
      let r3 := r2.drop 3
      let r4 := if startsWithL ['s'] r3 then r3.drop 1 else r3
      let r5 := r4.dropWhile isSpaceChar
      if startsWithL ['t', 'i', 'm', 'e'] r5 then some (digitsToNat ds) else none
    else none

/-- Embedding of `datetime.strptime` with the format `%Y-%m-%d` followed by
`.date()`: CPython compiles the format to the regex
`(?P<Y>\d\d\d\d)-(?P<m>1[0-2]|0[1-9]|[1-9])-(?P<d>3[01]|[12]\d|0[1-9]|[1-9])`,
requires the whole string to be consumed, and then `datetime.date`
validates the day against the month length and the year against
`MINYEAR = 1`.  Failure (`ValueError`) is `none`. -/
def pyStrptimeDate (cs : List Char) : Option PyDate :=
  let ys := cs.takeWhile isDigitChar
  let r1 := cs.dropWhile isDigitChar
  if ys.length = 4 ∧ startsWithL ['-'] r1 then
    let r2 := r1.drop 1
    let ms := r2.takeWhile isDigitChar
    let r3 := r2.dropWhile isDigitChar
    if (1 ≤ ms.length ∧ ms.length ≤ 2) ∧ startsWithL ['-'] r3 then
      let r4 := r3.drop 1
      let ds := r4.takeWhile isDigitChar
      let r5 := r4.dropWhile isDigitChar
      if 1 ≤ ds.length ∧ ds.length ≤ 2 ∧ r5 = [] then
        let y := digitsToNat ys
        let m := digitsToNat ms
        let dd := digitsToNat ds
        if 1 ≤ y ∧ 1 ≤ m ∧ m ≤ 12 ∧ 1 ≤ dd ∧ dd ≤ daysInMonth y m then
          some ⟨y, m, dd⟩
        else none
      else none
    else none
  else none

/-- The weekday-name table of `normalize_date` (index = Python weekday). -/
def weekdays : List (List Char) :=
  ["monday".toList, "tuesday".toList, "wednesday".toList, "thursday".toList,
   "friday".toList, "saturday".toList, "sunday".toList]

/-- The `ValueError` message raised when the 5-day horizon is exceeded. -/
def horizonMsg : String :=
  "Forecast is limited to 5 days ahead."

/-- The body of `normalize_date` from the point where
`text = date_str.strip().lower()` has been computed (steps 2–7 of the
resolution order); `orig` is the original `date_str`, used in the
`UnsupportedFormat` message. -/
def normalizeText (text : List Char) (today : PyDate) (orig : String) : Except String String :=
  if text = "tomorrow".toList then
    .ok (isoformat (addDays today 1))
  else if text = "next tomorrow".toList || text = "the day after tomorrow".toList then
    .ok (isoformat (addDays today 2))
  else
    match daysTimeMatch text with
    | some days =>
      if days > 5 then .error horizonMsg
      else .ok (isoformat (addDays today days))
    | none =>
      if text ∈ weekdays then
        let todayIdx := weekdayOf today
        let targetIdx := weekdays.indexOf text
        let delta := ((targetIdx : Int) - (todayIdx : Int)) % 7
        if delta > 5 then .error horizonMsg
        else .ok (isoformat (addDays today delta.toNat))
      else
        match pyStrptimeDate text with
        | some d => .ok (isoformat d)
        | none => .error ("Unsupported date format: " ++ orig)

/-- Embedding of `date_utils.normalize_date`.  The ambient clock
`datetime.utcnow().date()` is passed explicitly as `today`; raising
`ValueError(msg)` is `Except.error msg`. -/
def normalize_date (dateStr : String) (today : PyDate) : Except String String :=
  if dateStr.toList.isEmpty || pyLower dateStr.toList = "today".toList then
    .ok (isoformat today)
  else
    normalizeText (pyLower (pyStrip dateStr.toList)) today dateStr

/-- Decidable equality for normalization results, so concrete runs of
`normalize_date` can be checked by evaluation. -/
instance : DecidableEq (Except String String) := fun a b =>
  match a, b with
  | .ok x, .ok y =>
    if h : x = y then .isTrue (h ▸ rfl) else .isFalse (fun hc => h (Except.ok.inj hc))
  | .error x, .error y =>
    if h : x = y then .isTrue (h ▸ rfl) else .isFalse (fun hc => h (Except.error.inj hc))
  | .ok _, .error _ => .isFalse (fun hc => Except.noConfusion hc)
  | .error _, .ok _ => .isFalse (fun hc => Except.noConfusion hc)

/-! ## Numeric parsing and rendering (embedding of Python `float` / `str`)

Python floats are modelled as exact rationals.  `pyFloatList` embeds
`float(s)` on decimal literals (optional sign, integer/fractional digits,
optional exponent); the special spellings `inf`/`infinity`/`nan` and digit
underscores are outside the model — no claim or input below uses them. -/

/-- Parse an optional decimal exponent tail `[eE][+-]?digits` (must consume
the whole remainder). -/
def parseExpTail (cs : List Char) : Option Int :=
  match cs with
  | [] => some 0
  | 'e' :: r | 'E' :: r =>
    let (sgn, r1) : Int × List Char :=
      match r with
      | '+' :: r2 => (1, r2)
      | '-' :: r2 => (-1, r2)
      | r2 => (1, r2)
    let ds := r1.takeWhile isDigitChar
    let r2 := r1.dropWhile isDigitChar
    if ds.isEmpty || !r2.isEmpty then none
    else some (sgn * (digitsToNat ds : Int))
  | _ => none

/-- The mantissa-and-exponent assembly of `float(s)`: integer digits `ip`,
fractional digits `fp`, remaining exponent text `r2`. -/
def pyFloatExp (sgn : ℚ) (ip fp r2 : List Char) : Option ℚ :=
  match parseExpTail r2 with
  | none => none
  | some e =>
    some (sgn * ((digitsToNat ip : ℚ) + (digitsToNat fp : ℚ) / (10 : ℚ) ^ fp.length)
      * (10 : ℚ) ^ e)

/-- After the integer digits of `float(s)`: an optional `.` with fractional
digits; at least one digit must exist on either side of the point. -/
def pyFloatFrac (sgn : ℚ) (ip r1 : List Char) : Option ℚ :=
  match r1 with
  | '.' :: r =>
    let fp := r.takeWhile isDigitChar
    let r2 := r.dropWhile isDigitChar
    if ip.isEmpty && fp.isEmpty then none
    else pyFloatExp sgn ip fp r2
  | r1x =>
    if ip.isEmpty then none
    else pyFloatExp sgn ip [] r1x

/-- The unsigned part of `float(s)`. -/
def pyFloatBody (sgn : ℚ) (cs2 : List Char) : Option ℚ :=
  pyFloatFrac sgn (cs2.takeWhile isDigitChar) (cs2.dropWhile isDigitChar)

/-- Embedding of Python `float(s)` on decimal literals, as an exact rational:
surrounding whitespace stripped, an optional sign, then integer/fractional
digits and an optional decimal exponent. -/
def pyFloatList (cs0 : List Char) : Option ℚ :=
  match pyStrip cs0 with
  | [] => none
  | c :: r =>
    if c = '+' then pyFloatBody 1 r
    else if c = '-' then pyFloatBody (-1) r
    else pyFloatBody 1 (c :: r)

/-- Embedding of Python `float(s)` on a `String`. -/
def pyFloat (s : String) : Option ℚ :=
  pyFloatList s.toList

/-- Multiplicity of the prime `p` in `n` (fuel-driven). -/
def padicAux (p : Nat) : Nat → Nat → Nat
  | 0, _ => 0
  | fuel + 1, n => if n % p = 0 && n ≠ 0 then 1 + padicAux p fuel (n / p) else 0

/-- Multiplicity of the prime `p` in `n`. -/
def padicVal (p n : Nat) : Nat :=
  padicAux p n n

/-- Decimal rendering of a nonnegative rational whose reduced denominator is
`2^a * 5^b` (every Python float is such a number).  `floatStyle` forces a
decimal point on integral values, as Python `str` does for floats. -/
def renderPos (floatStyle : Bool) (q : ℚ) : List Char :=
  if q.den = 1 && !floatStyle then natDigits q.num.toNat
  else
    let a := padicVal 2 q.den
    let b := padicVal 5 q.den
    if 2 ^ a * 5 ^ b = q.den then
      let k := max a b
      let n := q.num.toNat * 10 ^ k / q.den
      if k = 0 then natDigits n ++ ['.', '0']
      else
        let frac := n % 10 ^ k
        let fd := natDigits frac
        natDigits (n / 10 ^ k) ++ '.' :: (List.replicate (k - fd.length) '0' ++ fd)
    else
      natDigits q.num.toNat ++ '/' :: natDigits q.den

/-- Decimal rendering of a rational, with sign. -/
def renderQ (floatStyle : Bool) (q : ℚ) : List Char :=
  if q < 0 then '-' :: renderPos floatStyle (-q) else renderPos floatStyle q

/-- Python `str`/f-string rendering of a JSON number (`int` prints without a
decimal point). -/
def renderNum (q : ℚ) : String :=
  String.mk (renderQ false q)

/-- Python `str`/f-string rendering of a float (`str(20.0) = "20.0"`). -/
def renderFloat (q : ℚ) : String :=
  String.mk (renderQ true q)

/-- Round a nonnegative rational to the nearest integer, ties to even
(IEEE-754 / Python `format` rounding on exactly representable values). -/
def roundHalfEvenPos (q : ℚ) : Nat :=
  let f := (⌊q⌋).toNat
  let r := q - (f : ℚ)
  if r < 1 / 2 then f
  else if 1 / 2 < r then f + 1
  else if f % 2 = 0 then f else f + 1

/-- Embedding of the f-string conversion `f"{q:.1f}"`. -/
def format1 (q : ℚ) : String :=
  let m := roundHalfEvenPos (10 * |q|)
  let body := natDigits (m / 10) ++ '.' :: [digitChar (m % 10)]
  String.mk (if q < 0 then '-' :: body else body)

/-! ## `weather_tools.py` — classification, transformation and summarization -/

/-- The record shape produced by `transform_forecast_data`
(`ForeCastResponse` TypedDict: every field already rendered as a string). -/
structure ForeCastResponse where
  time : String
  temperature : String
  condition : String
  windSpeed : String
  humidity : String
  precipitationProbability : String
deriving DecidableEq, Repr

/-- Embedding of `classify_temperature`. -/
def classify_temperature (temp : ℚ) : String :=
  if temp < 0 then "Freezing"
  else if 0 ≤ temp ∧ temp < 10 then "Cold"
  else if 10 ≤ temp ∧ temp < 20 then "Cool"
  else if 20 ≤ temp ∧ temp < 30 then "Warm"
  else "Hot"

/-- The `conditions` dict literal of `get_condition`, in source order. -/
def conditionsTable : List (Int × String) :=
  [(0, "Unknown"),
   (1000, "Clear, Sunny"),
   (1100, "Mostly Clear"),
   (1101, "Partly Cloudy"),
   (1102, "Mostly Cloudy"),
   (1001, "Cloudy"),
   (2000, "Fog"),
   (2100, "Light Fog"),
   (4000, "Drizzle"),
   (4001, "Rain"),
   (4200, "Light Rain"),
   (4201, "Heavy Rain"),
   (5000, "Snow"),
   (5001, "Flurries"),
   (5100, "Light Snow"),
   (5101, "Heavy Snow"),
   (6000, "Freezing Drizzle"),
   (6001, "Freezing Rain"),
   (6200, "Light Freezing Rain"),
   (6201, "Heavy Freezing Rain"),
   (7000, "Ice Pellets"),
   (7101, "Heavy Ice Pellets"),
   (7102, "Light Ice Pellets"),
   (8000, "Thunderstorm")]

/-- Embedding of `get_condition` (`conditions.get(code, "Unknown")`). -/
def get_condition (code : Int) : String :=
  (conditionsTable.lookup code).getD ("Unknown")

/-- The `values` sub-object of one raw hourly record from the provider;
`none` models an absent JSON key (each `.get(key, 0)` default). -/
structure RawValues where
  temperature : Option ℚ
  windSpeed : Option ℚ
  humidity : Option ℚ
  precipitationProbability : Option ℚ
  weatherCode : Option Int
deriving Repr

/-- The empty dict that `data.get` substitutes for a missing `values` key. -/
def emptyValues : RawValues :=
  ⟨none, none, none, none, none⟩

/-- One raw hourly record (`data` argument of `transform_forecast_data`). -/
structure RawData where
  time : Option String
  values : Option RawValues
deriving Repr

/-- Embedding of `transform_forecast_data`. -/
def transform_forecast_data (data : RawData) : ForeCastResponse :=
  let values := data.values.getD emptyValues
  let condition := get_condition (values.weatherCode.getD 0)
  { time := data.time.getD ("")
    temperature := renderNum (values.temperature.getD 0) ++ "°C"
    condition := condition
    windSpeed := renderNum (values.windSpeed.getD 0) ++ " km/h"
    precipitationProbability := renderNum (values.precipitationProbability.getD 0)
    humidity := renderNum (values.humidity.getD 0) ++ "%" }

/-- Embedding of `filter_forecast_by_date` (`str.startswith` prefix test). -/
def filter_forecast_by_date (forecasts : List ForeCastResponse) (target_date : String) :
    List ForeCastResponse :=
  forecasts.filter (fun forecast => startsWithL target_date.toList forecast.time.toList)

/-- The temperature parse of one record inside `summarize_forecast`:
`float` applied to the temperature field with `°C` removed; `none` on `ValueError`. -/
def parseTemp (forecast : ForeCastResponse) : Option ℚ :=
  pyFloatList (removeSub ("°C").toList forecast.temperature.toList)

/-- The `temperatures` list collected by `summarize_forecast`. -/
def parseTemps (forecasts : List ForeCastResponse) : List ℚ :=
  forecasts.filterMap parseTemp

/-- The `precipitation_probs` list collected by `summarize_forecast`. -/
def parsePrecips (forecasts : List ForeCastResponse) : List ℚ :=
  forecasts.filterMap (fun forecast => pyFloatList forecast.precipitationProbability.toList)

/-- The `conditions` list collected by `summarize_forecast` (lower-cased). -/
def conditionsOf (forecasts : List ForeCastResponse) : List (List Char) :=
  forecasts.map (fun forecast => pyLower forecast.condition.toList)

/-- Python `str.lower` on a `String`. -/
def lowerStr (s : String) : String :=
  String.mk (pyLower s.toList)

/-- The temperature sentence template of `summarize_forecast` (all three
branches of the source emit this same template). -/
def tempSentence (cls mn mx av : String) : String :=
  "It will be " ++ cls ++ " with temperatures ranging from " ++ mn ++ "°C to " ++ mx
    ++ "°C (average " ++ av ++ "°C)."

/-- The `if temperatures:` block of `summarize_forecast` (the sentences it
appends to `summary`). -/
def temperature_section (forecasts : List ForeCastResponse) : List String :=
  match parseTemps forecasts with
  | [] => []
  | t :: ts =>
    let avg_temp := (t :: ts).sum / ((t :: ts).length : ℚ)
    let max_temp := ts.foldl max t
    let min_temp := ts.foldl min t
    let sentence :=
      tempSentence (lowerStr (classify_temperature avg_temp)) (renderFloat min_temp)
        (renderFloat max_temp) (format1 avg_temp)
    if avg_temp < 10 then [sentence]
    else if avg_temp > 25 then [sentence]
    else [sentence]

/-- The `if precipitation_probs:` block of `summarize_forecast`. -/
def precipitation_section (forecasts : List ForeCastResponse) : List String :=
  match parsePrecips forecasts with
  | [] => []
  | p :: ps =>
    let max_precip := ps.foldl max p
    let _avg_precip := (p :: ps).sum / ((p :: ps).length : ℚ)
    if max_precip > 70 then ["Yes, it will likely rain with high probability of precipitation."]
    else if max_precip > 40 then ["There\x27s a moderate chance of rain."]
    else if max_precip > 20 then ["There\x27s a slight chance of rain."]
    else ["It\x27s unlikely to rain."]

/-- The `rain_conditions` keyword list of `summarize_forecast`. -/
def rain_conditions : List (List Char) :=
  ["rain".toList, "drizzle".toList, "thunderstorm".toList, "snow".toList]

/-- The `will_rain` flag of `summarize_forecast`. -/
def will_rain (forecasts : List ForeCastResponse) : Bool :=
  (conditionsOf forecasts).any (fun condition =>
    rain_conditions.any (fun rain_word => containsL rain_word condition))

/-- The wet-weather sentence block of `summarize_forecast`. -/
def wet_section (forecasts : List ForeCastResponse) : List String :=
  if will_rain forecasts then ["Expect wet weather conditions."] else []

/-- One bullet line of the hourly breakdown. -/
def hourlyLine (forecast : ForeCastResponse) : String :=
  "• " ++ forecast.time ++ ": " ++ forecast.temperature ++ " with " ++ forecast.condition
    ++ ", " ++ forecast.precipitationProbability ++ "% chance of rain"

/-- The hourly-breakdown block of `summarize_forecast` (header plus bullets). -/
def hourly_section (forecasts : List ForeCastResponse) : List String :=
  "\nHourly breakdown:" :: forecasts.map hourlyLine

/-- Embedding of `summarize_forecast`: the early empty-list return, then the
`summary` list built in source order and joined with `"\n"`. -/
def summarize_forecast (forecasts : List ForeCastResponse) : String :=
  if forecasts.isEmpty then "No forecast data available for the specified date."
  else
    String.intercalate ("\n")
      (temperature_section forecasts ++ precipitation_section forecasts
        ++ wet_section forecasts ++ hourly_section forecasts)

/-! ## Helper lemmas: characters and digits -/

theorem toLower_of_toNat_le (c : Char) (h : c.toNat ≤ 57) : Char.toLower c = c := by
  unfold Char.toLower
  rw [if_neg]
  intro hc
  omega

theorem toLower_of_digit (c : Char) (h : isDigitChar c = true) : Char.toLower c = c := by
  apply toLower_of_toNat_le
  unfold isDigitChar at h
  simp only [Bool.and_eq_true, decide_eq_true_eq] at h
  exact h.2

theorem digit_ne_char (c a : Char) (h : isDigitChar c = true) (ha : 58 ≤ a.toNat) : c ≠ a := by
  intro he
  unfold isDigitChar at h
  simp only [Bool.and_eq_true, decide_eq_true_eq] at h
  rw [he] at h
  omega

theorem digit_not_space (c : Char) (h : isDigitChar c = true) : isSpaceChar c = false := by
  unfold isDigitChar at h
  simp only [Bool.and_eq_true, decide_eq_true_eq] at h
  unfold isSpaceChar
  have h1 : c ≠ ' ' := fun he => by subst he; revert h; decide
  have h2 : c ≠ '\t' := fun he => by subst he; revert h; decide
  have h3 : c ≠ '\n' := fun he => by subst he; revert h; decide
  have h4 : c ≠ '\r' := fun he => by subst he; revert h; decide
  have h5 : c ≠ '\x0b' := fun he => by subst he; revert h; decide
  have h6 : c ≠ '\x0c' := fun he => by subst he; revert h; decide
  simp [h1, h2, h3, h4, h5, h6]

theorem digitChar_lt_cases : ∀ k < 10,
    isDigitChar (digitChar k) = true ∧ Char.toLower (digitChar k) = digitChar k ∧
    isSpaceChar (digitChar k) = false ∧ (digitChar k).toNat - 48 = k ∧
    (digitChar k).toNat ≤ 57 := by decide

theorem digitChar_mod_digit (n : Nat) : isDigitChar (digitChar (n % 10)) = true :=
  (digitChar_lt_cases (n % 10) (Nat.mod_lt _ (by norm_num))).1

theorem digitChar_mod_toLower (n : Nat) : Char.toLower (digitChar (n % 10)) = digitChar (n % 10) :=
  (digitChar_lt_cases (n % 10) (Nat.mod_lt _ (by norm_num))).2.1

theorem digitChar_mod_space (n : Nat) : isSpaceChar (digitChar (n % 10)) = false :=
  (digitChar_lt_cases (n % 10) (Nat.mod_lt _ (by norm_num))).2.2.1

theorem digitChar_mod_toNat (n : Nat) : (digitChar (n % 10)).toNat - 48 = n % 10 :=
  (digitChar_lt_cases (n % 10) (Nat.mod_lt _ (by norm_num))).2.2.2.1

theorem digitChar_mod_ne (n : Nat) (a : Char) (ha : 58 ≤ a.toNat) : digitChar (n % 10) ≠ a :=
  digit_ne_char _ _ (digitChar_mod_digit n) ha

/-! ## Helper lemmas: lists -/

theorem takeWhile_append_all {p : Char → Bool} {l1 : List Char} (l2 : List Char)
    (h : ∀ c ∈ l1, p c = true) : (l1 ++ l2).takeWhile p = l1 ++ l2.takeWhile p := by
  induction l1 with
  | nil => simp
  | cons a t ih =>
    simp only [List.cons_append, List.takeWhile_cons, h a (by simp), if_true]
    rw [ih (fun c hc => h c (by simp [hc]))]

theorem dropWhile_append_all {p : Char → Bool} {l1 : List Char} (l2 : List Char)
    (h : ∀ c ∈ l1, p c = true) : (l1 ++ l2).dropWhile p = l2.dropWhile p := by
  induction l1 with
  | nil => simp
  | cons a t ih =>
    simp only [List.cons_append, List.dropWhile_cons, h a (by simp), if_true]
    exact ih (fun c hc => h c (by simp [hc]))

theorem map_toLower_digits {ds : List Char} (h : ∀ c ∈ ds, isDigitChar c = true) :
    ds.map Char.toLower = ds := by
  induction ds with
  | nil => rfl
  | cons a t ih =>
    simp only [List.map_cons, toLower_of_digit a (h a (by simp))]
    rw [ih (fun c hc => h c (by simp [hc]))]

section FoldExtrema

variable {α : Type} [LinearOrder α]

theorem init_le_foldl_max (l : List α) : ∀ a : α, a ≤ l.foldl max a := by
  induction l with
  | nil => intro a; exact le_refl a
  | cons b t ih =>
    intro a
    exact le_trans (le_max_left a b) (ih (max a b))

theorem foldl_max_mem (l : List α) : ∀ a : α, l.foldl max a ∈ a :: l := by
  induction l with
  | nil => intro a; simp
  | cons b t ih =>
    intro a
    have h := ih (max a b)
    rcases List.mem_cons.1 h with h1 | h1
    · rcases max_choice a b with hc | hc <;>
        (rw [List.foldl_cons, hc]; rw [hc] at h1; simp [h1])
    · simp only [List.foldl_cons, List.mem_cons]
      right; right; exact h1

theorem le_foldl_max (l : List α) : ∀ a x : α, x ∈ a :: l → x ≤ l.foldl max a := by
  induction l with
  | nil =>
    intro a x hx
    simp only [List.mem_singleton] at hx
    simp [hx]
  | cons b t ih =>
    intro a x hx
    simp only [List.foldl_cons]
    rcases List.mem_cons.1 hx with rfl | hx1
    · exact le_trans (le_max_left x b) (init_le_foldl_max t (max x b))
    · rcases List.mem_cons.1 hx1 with rfl | hx2
      · exact le_trans (le_max_right a x) (init_le_foldl_max t (max a x))
      · exact ih (max a b) x (by simp [hx2])

theorem foldl_min_le_init (l : List α) : ∀ a : α, l.foldl min a ≤ a := by
  induction l with
  | nil => intro a; exact le_refl a
  | cons b t ih =>
    intro a
    exact le_trans (ih (min a b)) (min_le_left a b)

theorem foldl_min_mem (l : List α) : ∀ a : α, l.foldl min a ∈ a :: l := by
  induction l with
  | nil => intro a; simp
  | cons b t ih =>
    intro a
    have h := ih (min a b)
    rcases List.mem_cons.1 h with h1 | h1
    · rcases min_choice a b with hc | hc <;>
        (rw [List.foldl_cons, hc]; rw [hc] at h1; simp [h1])
    · simp only [List.foldl_cons, List.mem_cons]
      right; right; exact h1

theorem foldl_min_le (l : List α) : ∀ a x : α, x ∈ a :: l → l.foldl min a ≤ x := by
  induction l with
  | nil =>
    intro a x hx
    simp only [List.mem_singleton] at hx
    simp [hx]
  | cons b t ih =>
    intro a x hx
    simp only [List.foldl_cons]
    rcases List.mem_cons.1 hx with rfl | hx1
    · exact le_trans (foldl_min_le_init t (min x b)) (min_le_left x b)
    · rcases List.mem_cons.1 hx1 with rfl | hx2
      · exact le_trans (foldl_min_le_init t (min a x)) (min_le_right a x)
      · exact ih (min a b) x (by simp [hx2])

end FoldExtrema

/-! ## Helper lemmas: the calendar -/

theorem dbm_step : ∀ (L : Bool), ∀ m < 12, 1 ≤ m →
    daysBeforeMonthB L (m + 1) = daysBeforeMonthB L m + daysInMonthB L m := by decide

theorem one_le_dim : ∀ (L : Bool), ∀ m < 13, 1 ≤ m → 1 ≤ daysInMonthB L m := by decide

theorem dim_le_31 : ∀ (L : Bool), ∀ m < 13, daysInMonthB L m ≤ 31 := by decide

theorem isLeap_spec (y : Nat) :
    isLeap y = true ↔ (y % 4 = 0 ∧ ¬(y % 100 = 0)) ∨ y % 400 = 0 := by
  unfold isLeap
  simp

theorem valid_nextDay {d : PyDate} (h : ValidDate d) : ValidDate (nextDay d) := by
  obtain ⟨hy, hm1, hm2, hd1, hd2⟩ := h
  unfold nextDay
  by_cases h1 : d.day < daysInMonth d.year d.month
  · rw [if_pos h1]
    refine ⟨hy, hm1, hm2, ?_, ?_⟩
    · show 1 ≤ d.day + 1
      omega
    · show d.day + 1 ≤ daysInMonth d.year d.month
      omega
  · rw [if_neg h1]
    by_cases h2 : d.month < 12
    · rw [if_pos h2]
      refine ⟨hy, by dsimp only; omega, by dsimp only; omega, le_refl 1, ?_⟩
      show 1 ≤ daysInMonth d.year (d.month + 1)
      exact one_le_dim (isLeap d.year) (d.month + 1) (by omega) (by omega)
    · rw [if_neg h2]
      refine ⟨by dsimp only; omega, by norm_num, by norm_num, le_refl 1, ?_⟩
      show 1 ≤ daysInMonth (d.year + 1) 1
      exact one_le_dim _ 1 (by norm_num) (le_refl 1)

set_option maxHeartbeats 2000000 in
theorem dayNumber_nextDay {d : PyDate} (h : ValidDate d) :
    dayNumber (nextDay d) = dayNumber d + 1 := by
  obtain ⟨hy, hm1, hm2, hd1, hd2⟩ := h
  unfold nextDay
  by_cases h1 : d.day < daysInMonth d.year d.month
  · rw [if_pos h1]
    unfold dayNumber
    dsimp only
    omega
  · rw [if_neg h1]
    by_cases h2 : d.month < 12
    · rw [if_pos h2]
      unfold dayNumber
      dsimp only
      have hstep := dbm_step (isLeap d.year) d.month h2 hm1
      unfold daysInMonth at h1 hd2
      omega
    · rw [if_neg h2]
      have hm12 : d.month = 12 := by omega
      have hday : d.day = 31 := by
        unfold daysInMonth at h1 hd2
        rw [hm12] at h1 hd2
        simp only [daysInMonthB] at h1 hd2
        omega
      unfold dayNumber
      dsimp only
      rw [hm12, hday]
      have hL1 : daysBeforeMonthB (isLeap (d.year + 1)) 1 = 0 := by
        cases isLeap (d.year + 1) <;> rfl
      rw [hL1]
      cases hb : isLeap d.year
      · have hs : ¬((d.year % 4 = 0 ∧ ¬(d.year % 100 = 0)) ∨ d.year % 400 = 0) := by
          rw [← isLeap_spec, hb]
          simp
        have hdbm : daysBeforeMonthB false 12 = 334 := rfl
        rw [hdbm]
        omega
      · have hs : (d.year % 4 = 0 ∧ ¬(d.year % 100 = 0)) ∨ d.year % 400 = 0 :=
          (isLeap_spec d.year).1 hb
        have hdbm : daysBeforeMonthB true 12 = 335 := rfl
        rw [hdbm]
        omega

theorem valid_addDays {d : PyDate} (h : ValidDate d) (n : Nat) : ValidDate (addDays d n) := by
  induction n with
  | zero => exact h
  | succ k ih => exact valid_nextDay ih

theorem dayNumber_addDays {d : PyDate} (h : ValidDate d) (n : Nat) :
    dayNumber (addDays d n) = dayNumber d + n := by
  induction n with
  | zero => rfl
  | succ k ih =>
    show dayNumber (nextDay (addDays d k)) = dayNumber d + (k + 1)
    rw [dayNumber_nextDay (valid_addDays h k), ih]
    omega

theorem weekday_addDays {d : PyDate} (h : ValidDate d) (n : Nat) :
    weekdayOf (addDays d n) = (weekdayOf d + n) % 7 := by
  unfold weekdayOf
  rw [dayNumber_addDays h n]
  omega

/-! ## Helper lemmas: temperature classification -/

theorem classify_freezing_iff (q : ℚ) : classify_temperature q = "Freezing" ↔ q < 0 := by
  unfold classify_temperature
  split_ifs with h1 h2 h3 h4
  · simp [h1]
  all_goals exact ⟨fun h => absurd h (by decide), fun h => absurd h h1⟩

theorem classify_cold_iff (q : ℚ) : classify_temperature q = "Cold" ↔ 0 ≤ q ∧ q < 10 := by
  unfold classify_temperature
  split_ifs with h1 h2 h3 h4
  · exact ⟨fun h => absurd h (by decide), fun h => absurd h.1 (not_le.mpr h1)⟩
  · simp [h2]
  all_goals exact ⟨fun h => absurd h (by decide), fun h => absurd h h2⟩

theorem classify_cool_iff (q : ℚ) : classify_temperature q = "Cool" ↔ 10 ≤ q ∧ q < 20 := by
  unfold classify_temperature
  split_ifs with h1 h2 h3 h4
  · exact ⟨fun h => absurd h (by decide), fun h => by exfalso; linarith [h.1]⟩
  · exact ⟨fun h => absurd h (by decide), fun h => by exfalso; linarith [h.1, h2.2]⟩
  · simp [h3]
  all_goals exact ⟨fun h => absurd h (by decide), fun h => absurd h h3⟩

theorem classify_warm_iff (q : ℚ) : classify_temperature q = "Warm" ↔ 20 ≤ q ∧ q < 30 := by
  unfold classify_temperature
  split_ifs with h1 h2 h3 h4
  · exact ⟨fun h => absurd h (by decide), fun h => by exfalso; linarith [h.1]⟩
  · exact ⟨fun h => absurd h (by decide), fun h => by exfalso; linarith [h.1, h2.2]⟩
  · exact ⟨fun h => absurd h (by decide), fun h => by exfalso; linarith [h.1, h3.2]⟩
  · simp [h4]
  · exact ⟨fun h => absurd h (by decide), fun h => absurd h h4⟩

theorem classify_hot_iff (q : ℚ) : classify_temperature q = "Hot" ↔ 30 ≤ q := by
  unfold classify_temperature
  split_ifs with h1 h2 h3 h4
  · exact ⟨fun h => absurd h (by decide), fun h => by exfalso; linarith⟩
  · exact ⟨fun h => absurd h (by decide), fun h => by exfalso; linarith [h2.2]⟩
  · exact ⟨fun h => absurd h (by decide), fun h => by exfalso; linarith [h3.2]⟩
  · exact ⟨fun h => absurd h (by decide), fun h => by exfalso; linarith [h4.2]⟩
  · constructor
    · intro _
      by_contra hc
      push_neg at hc
      have hq0 : 0 ≤ q := not_lt.1 h1
      have hq10 : 10 ≤ q := by
        by_contra hx
        push_neg at hx
        exact h2 ⟨hq0, hx⟩
      have hq20 : 20 ≤ q := by
        by_contra hx
        push_neg at hx
        exact h3 ⟨hq10, hx⟩
      exact h4 ⟨hq20, hc⟩
    · intro _
      rfl

/-! ## Helper lemmas: the wet-condition flag and the condition table -/

theorem will_rain_iff (fs : List ForeCastResponse) :
    will_rain fs = true ↔
      ∃ f ∈ fs, ∃ w ∈ rain_conditions, containsL w (pyLower f.condition.toList) = true := by
  unfold will_rain conditionsOf
  simp [List.any_eq_true, List.any_map]

theorem lookup_eq_none_of_not_mem (l : List (Int × String)) (c : Int)
    (h : c ∉ l.map Prod.fst) : l.lookup c = none := by
  induction l with
  | nil => rfl
  | cons p t ih =>
    obtain ⟨k, v⟩ := p
    simp only [List.map_cons, List.mem_cons, not_or] at h
    have hb : (c == k) = false := beq_eq_false_iff_ne.2 h.1
    simp only [List.lookup, hb]
    exact ih h.2

/-! ## Helper lemmas: evaluating the float parser and the renderers -/

theorem dropWhile_eq_self_of_all {p : Char → Bool} {cs : List Char}
    (h : ∀ c ∈ cs, p c = false) : cs.dropWhile p = cs := by
  cases cs with
  | nil => rfl
  | cons a t => simp [List.dropWhile_cons, h a (by simp)]

theorem takeWhile_eq_self_of_all {p : Char → Bool} {cs : List Char}
    (h : ∀ c ∈ cs, p c = true) : cs.takeWhile p = cs := by
  induction cs with
  | nil => rfl
  | cons a t ih =>
    simp only [List.takeWhile_cons, h a (by simp), if_true]
    rw [ih (fun c hc => h c (by simp [hc]))]

theorem dropWhile_eq_nil_of_all {p : Char → Bool} {cs : List Char}
    (h : ∀ c ∈ cs, p c = true) : cs.dropWhile p = [] := by
  induction cs with
  | nil => rfl
  | cons a t ih =>
    simp only [List.dropWhile_cons, h a (by simp), if_true]
    exact ih (fun c hc => h c (by simp [hc]))

theorem pyStrip_of_no_space {cs : List Char} (h : ∀ c ∈ cs, isSpaceChar c = false) :
    pyStrip cs = cs := by
  unfold pyStrip
  rw [dropWhile_eq_self_of_all h]
  rw [dropWhile_eq_self_of_all (fun c hc => h c (List.mem_reverse.1 hc))]
  exact List.reverse_reverse cs

theorem digit_ne_sign (c : Char) (h : isDigitChar c = true) : c ≠ '+' ∧ c ≠ '-' := by
  constructor
  · intro he; subst he; revert h; decide
  · intro he; subst he; revert h; decide

/-- Running `float(s)` on a pure (non-empty) digit string yields the denoted natural. -/
theorem pyFloatList_all_digits (ds : List Char) (hne : ds ≠ [])
    (hd : ∀ c ∈ ds, isDigitChar c = true) :
    pyFloatList ds = some (digitsToNat ds : ℚ) := by
  obtain ⟨c, rest, rfl⟩ := List.exists_cons_of_ne_nil hne
  unfold pyFloatList
  have hstrip : pyStrip (c :: rest) = c :: rest :=
    pyStrip_of_no_space (fun x hx => digit_not_space x (hd x hx))
  rw [hstrip]
  dsimp only
  have hsgn := digit_ne_sign c (hd c (by simp))
  rw [if_neg hsgn.1, if_neg hsgn.2]
  unfold pyFloatBody
  rw [takeWhile_eq_self_of_all hd, dropWhile_eq_nil_of_all hd]
  unfold pyFloatFrac
  dsimp only
  rw [if_neg (by simp)]
  unfold pyFloatExp parseExpTail
  show some (1 * ((digitsToNat (c :: rest) : ℚ) + (digitsToNat [] : ℚ) / (10 : ℚ) ^ (0 : ℕ))
      * (10 : ℚ) ^ (0 : ℤ)) = _
  have hd0 : digitsToNat [] = 0 := rfl
  rw [hd0]
  push_cast
  ring_nf

/-- Evaluating `parseTemp` on a record whose temperature renders to a pure
digit string. -/
theorem parseTemp_digits (f : ForeCastResponse) (ds : List Char) (n : Nat)
    (h1 : removeSub ("°C").toList f.temperature.toList = ds) (h2 : ds ≠ [])
    (h3 : ∀ c ∈ ds, isDigitChar c = true) (h4 : digitsToNat ds = n) :
    parseTemp f = some (n : ℚ) := by
  unfold parseTemp
  rw [h1, pyFloatList_all_digits ds h2 h3, h4]

/-- Evaluating the precipitation parse on a pure digit string. -/
theorem parsePrecip_digits (f : ForeCastResponse) (ds : List Char) (n : Nat)
    (h1 : f.precipitationProbability.toList = ds) (h2 : ds ≠ [])
    (h3 : ∀ c ∈ ds, isDigitChar c = true) (h4 : digitsToNat ds = n) :
    pyFloatList f.precipitationProbability.toList = some (n : ℚ) := by
  rw [h1, pyFloatList_all_digits ds h2 h3, h4]

/-- Rendering a natural number with `renderFloat` always shows a trailing `.0`
(Python `str` on an integral float). -/
theorem renderFloat_natCast (n : ℕ) :
    renderFloat (n : ℚ) = String.mk (natDigits n ++ ['.', '0']) := by
  unfold renderFloat renderQ
  rw [if_neg (not_lt.2 (by positivity))]
  unfold renderPos
  rw [Rat.den_natCast, Rat.num_natCast]
  simp only [decide_eq_true_eq]
  norm_num [padicVal, padicAux, Int.toNat_natCast]

/-! ## Claim theorems -/

/-- C1: for every non-empty filtered record list containing at least one
parseable numeric temperature, `summarize_forecast` emits exactly one
temperature sentence, reporting the `TemperatureClass` of the arithmetic mean
(lower-cased) together with the min, the max and the mean rounded to one
decimal place; the class follows the fixed non-overlapping thresholds
(`< 0` Freezing, `[0,10)` Cold, `[10,20)` Cool, `[20,30)` Warm, `≥ 30` Hot),
and non-numeric temperature values are skipped without failing the summary. -/
theorem temperature_section_spec :
    ∀ (fs : List ForeCastResponse) (t : ℚ) (ts : List ℚ),
    parseTemps fs = t :: ts →
    (temperature_section fs =
      [tempSentence (lowerStr (classify_temperature ((t :: ts).sum / ((t :: ts).length : ℚ))))
        (renderFloat (ts.foldl min t)) (renderFloat (ts.foldl max t))
        (format1 ((t :: ts).sum / ((t :: ts).length : ℚ)))]
    ∧ (temperature_section fs).length = 1
    ∧ ts.foldl min t ∈ t :: ts ∧ (∀ q ∈ t :: ts, ts.foldl min t ≤ q)
    ∧ ts.foldl max t ∈ t :: ts ∧ (∀ q ∈ t :: ts, q ≤ ts.foldl max t))
    ∧ (∀ q : ℚ,
        (classify_temperature q = "Freezing" ↔ q < 0)
        ∧ (classify_temperature q = "Cold" ↔ 0 ≤ q ∧ q < 10)
        ∧ (classify_temperature q = "Cool" ↔ 10 ≤ q ∧ q < 20)
        ∧ (classify_temperature q = "Warm" ↔ 20 ≤ q ∧ q < 30)
        ∧ (classify_temperature q = "Hot" ↔ 30 ≤ q))
    ∧ (∀ (r : ForeCastResponse) (gs : List ForeCastResponse),
        parseTemp r = none → parseTemps (r :: gs) = parseTemps gs)
    ∧ (fs ≠ [] → summarize_forecast fs =
        String.intercalate ("\n") (temperature_section fs ++ precipitation_section fs
          ++ wet_section fs ++ hourly_section fs)) := by
  intro fs t ts hpt
  have hsec : temperature_section fs =
      [tempSentence (lowerStr (classify_temperature ((t :: ts).sum / ((t :: ts).length : ℚ))))
        (renderFloat (ts.foldl min t)) (renderFloat (ts.foldl max t))
        (format1 ((t :: ts).sum / ((t :: ts).length : ℚ)))] := by
    unfold temperature_section
    rw [hpt]
    dsimp only
    split_ifs <;> rfl
  refine ⟨⟨hsec, by rw [hsec]; rfl, foldl_min_mem ts t,
      fun q hq => foldl_min_le ts t q hq, foldl_max_mem ts t,
      fun q hq => le_foldl_max ts t q hq⟩,
    fun q => ⟨classify_freezing_iff q, classify_cold_iff q, classify_cool_iff q,
      classify_warm_iff q, classify_hot_iff q⟩, ?_, ?_⟩
  · intro r gs hr
    unfold parseTemps
    rw [List.filterMap_cons, hr]
  · intro hne
    cases fs with
    | nil => exact absurd rfl hne
    | cons a l => rfl

/-- C1 witness: the spec example — temperatures 5, 15, 25 on the target date
give mean 15.0, class ("cool"), min 5.0, max 25.0. -/
theorem temperature_section_spec_witness :
    temperature_section
      [⟨"2025-10-12T01:00:00Z", "5°C", "Cloudy", "1 km/h", "1%", "10"⟩,
       ⟨"2025-10-12T02:00:00Z", "15°C", "Cloudy", "1 km/h", "1%", "10"⟩,
       ⟨"2025-10-12T03:00:00Z", "25°C", "Cloudy", "1 km/h", "1%", "10"⟩] =
      ["It will be cool with temperatures ranging from 5.0°C to 25.0°C (average 15.0°C)."] := by
  have hpt : parseTemps
      [⟨"2025-10-12T01:00:00Z", "5°C", "Cloudy", "1 km/h", "1%", "10"⟩,
       ⟨"2025-10-12T02:00:00Z", "15°C", "Cloudy", "1 km/h", "1%", "10"⟩,
       ⟨"2025-10-12T03:00:00Z", "25°C", "Cloudy", "1 km/h", "1%", "10"⟩] = 5 :: [15, 25] := by
    unfold parseTemps
    rw [List.filterMap_cons, List.filterMap_cons, List.filterMap_cons, List.filterMap_nil]
    rw [parseTemp_digits _ ['5'] 5 (by decide) (by decide) (by decide) (by decide)]
    rw [parseTemp_digits _ ['1', '5'] 15 (by decide) (by decide) (by decide) (by decide)]
    rw [parseTemp_digits _ ['2', '5'] 25 (by decide) (by decide) (by decide) (by decide)]
    norm_num
  have h := (temperature_section_spec
    [⟨"2025-10-12T01:00:00Z", "5°C", "Cloudy", "1 km/h", "1%", "10"⟩,
     ⟨"2025-10-12T02:00:00Z", "15°C", "Cloudy", "1 km/h", "1%", "10"⟩,
     ⟨"2025-10-12T03:00:00Z", "25°C", "Cloudy", "1 km/h", "1%", "10"⟩]
    5 [15, 25] hpt).1.1
  rw [h]
  have havg : (((5 : ℚ) :: [15, 25]).sum / (((5 : ℚ) :: [15, 25]).length : ℚ)) = 15 := by
    simp [List.sum_cons]
    norm_num
  have hmin : List.foldl min (5 : ℚ) [15, 25] = 5 := by
    norm_num [List.foldl_cons, List.foldl_nil]
  have hmax : List.foldl max (5 : ℚ) [15, 25] = 25 := by
    norm_num [List.foldl_cons, List.foldl_nil]
  rw [havg, hmin, hmax]
  have hcls : classify_temperature (15 : ℚ) = "Cool" := by
    unfold classify_temperature
    rw [if_neg (by norm_num), if_neg (by norm_num), if_pos (by norm_num)]
  rw [hcls]
  have hr5 : renderFloat ((5 : ℕ) : ℚ) = "5.0" := by rw [renderFloat_natCast]; decide
  have hr25 : renderFloat ((25 : ℕ) : ℚ) = "25.0" := by rw [renderFloat_natCast]; decide
  rw [show (5 : ℚ) = ((5 : ℕ) : ℚ) by norm_num, show (25 : ℚ) = ((25 : ℕ) : ℚ) by norm_num,
    hr5, hr25]
  have hf : format1 (15 : ℚ) = "15.0" := by
    have hm : roundHalfEvenPos (10 * |(15 : ℚ)|) = 150 := by
      unfold roundHalfEvenPos
      have h1 : (10 : ℚ) * |(15 : ℚ)| = 150 := by norm_num
      rw [h1]
      have h3 : (⌊(150 : ℚ)⌋) = 150 := by norm_num
      rw [h3]
      have h4 : (150 : ℤ).toNat = 150 := by decide
      rw [h4]
      rw [if_pos (by norm_num)]
    unfold format1
    rw [hm]
    have hneg : ((15 : ℚ) < 0) = False := by norm_num
    simp only [hneg, if_false]
    decide
  rw [hf]
  decide

/-- C5: summarization considers exactly the records whose ISO timestamp starts
with the target date, and an empty filtered set yields exactly the fixed
sentence with no further processing and no error. -/
theorem filter_and_empty_spec : ∀ (fs : List ForeCastResponse) (d : String),
    (∀ f, f ∈ filter_forecast_by_date fs d ↔
      f ∈ fs ∧ startsWithL d.toList f.time.toList = true)
    ∧ summarize_forecast [] = "No forecast data available for the specified date."
    ∧ (filter_forecast_by_date fs d = [] →
        summarize_forecast (filter_forecast_by_date fs d) =
          "No forecast data available for the specified date.") := by
  intro fs d
  refine ⟨fun f => ?_, rfl, fun h => by rw [h]; rfl⟩
  simp [filter_forecast_by_date, List.mem_filter]

/-- C5 witness: a record on 2025-10-13 is filtered out for target 2025-10-12
and the summary degrades to the fixed sentence. -/
theorem filter_and_empty_spec_witness :
    summarize_forecast (filter_forecast_by_date
      [⟨"2025-10-13T00:00:00Z", "0°C", "Cloudy", "0 km/h", "0%", "0"⟩] "2025-10-12") =
      "No forecast data available for the specified date." :=
  (filter_and_empty_spec
    [⟨"2025-10-13T00:00:00Z", "0°C", "Cloudy", "0 km/h", "0%", "0"⟩] "2025-10-12").2.2
    (by decide)

/-- C6: with at least one parseable precipitation probability, exactly one of
four mutually exclusive sentences is emitted, selected by the maximum of the
valid values (`>70`, `>40`, `>20`, otherwise); the four sentences are pairwise
distinct and fixed, so the average probability is never surfaced. -/
theorem precipitation_section_spec : ∀ (fs : List ForeCastResponse) (p : ℚ) (ps : List ℚ),
    parsePrecips fs = p :: ps →
    (precipitation_section fs =
      [if ps.foldl max p > 70 then
        "Yes, it will likely rain with high probability of precipitation."
       else if ps.foldl max p > 40 then "There\x27s a moderate chance of rain."
       else if ps.foldl max p > 20 then "There\x27s a slight chance of rain."
       else "It\x27s unlikely to rain."])
    ∧ (precipitation_section fs).length = 1
    ∧ ps.foldl max p ∈ p :: ps ∧ (∀ q ∈ p :: ps, q ≤ ps.foldl max p)
    ∧ (["Yes, it will likely rain with high probability of precipitation.",
        "There\x27s a moderate chance of rain.", "There\x27s a slight chance of rain.",
        "It\x27s unlikely to rain."] : List String).Nodup := by
  intro fs p ps hp
  have hsec : precipitation_section fs =
      [if ps.foldl max p > 70 then
        "Yes, it will likely rain with high probability of precipitation."
       else if ps.foldl max p > 40 then "There\x27s a moderate chance of rain."
       else if ps.foldl max p > 20 then "There\x27s a slight chance of rain."
       else "It\x27s unlikely to rain."] := by
    unfold precipitation_section
    rw [hp]
    dsimp only
    split_ifs <;> rfl
  exact ⟨hsec, by rw [hsec]; rfl, foldl_max_mem ps p,
    fun q hq => le_foldl_max ps p q hq, by decide⟩

/-- C6 witness: the spec example — probabilities whose max is 80 select the
high-probability sentence. -/
theorem precipitation_section_spec_witness :
    precipitation_section
      [⟨"2025-10-12T01:00:00Z", "5°C", "Cloudy", "1 km/h", "1%", "10"⟩,
       ⟨"2025-10-12T02:00:00Z", "5°C", "Cloudy", "1 km/h", "1%", "30"⟩,
       ⟨"2025-10-12T03:00:00Z", "5°C", "Cloudy", "1 km/h", "1%", "80"⟩] =
      ["Yes, it will likely rain with high probability of precipitation."] := by
  have hp : parsePrecips
      [⟨"2025-10-12T01:00:00Z", "5°C", "Cloudy", "1 km/h", "1%", "10"⟩,
       ⟨"2025-10-12T02:00:00Z", "5°C", "Cloudy", "1 km/h", "1%", "30"⟩,
       ⟨"2025-10-12T03:00:00Z", "5°C", "Cloudy", "1 km/h", "1%", "80"⟩] = 10 :: [30, 80] := by
    unfold parsePrecips
    rw [List.filterMap_cons, List.filterMap_cons, List.filterMap_cons, List.filterMap_nil]
    rw [parsePrecip_digits _ ['1', '0'] 10 (by decide) (by decide) (by decide) (by decide)]
    rw [parsePrecip_digits _ ['3', '0'] 30 (by decide) (by decide) (by decide) (by decide)]
    rw [parsePrecip_digits _ ['8', '0'] 80 (by decide) (by decide) (by decide) (by decide)]
    norm_num
  have h := (precipitation_section_spec
    [⟨"2025-10-12T01:00:00Z", "5°C", "Cloudy", "1 km/h", "1%", "10"⟩,
     ⟨"2025-10-12T02:00:00Z", "5°C", "Cloudy", "1 km/h", "1%", "30"⟩,
     ⟨"2025-10-12T03:00:00Z", "5°C", "Cloudy", "1 km/h", "1%", "80"⟩] 10 [30, 80] hp).1
  rw [h]
  have hmax : List.foldl max (10 : ℚ) [30, 80] = 80 := by
    norm_num [List.foldl_cons, List.foldl_nil]
  rw [hmax, if_pos (by norm_num)]

/-- C8: the fixed wet-weather sentence is appended exactly once if and only if
the lower-cased condition label of some filtered record contains one of the
substrings `rain`, `drizzle`, `thunderstorm`, `snow`; the section is always
the singleton sentence or empty, regardless of how many records match. -/
theorem wet_section_spec : ∀ fs : List ForeCastResponse,
    (wet_section fs = ["Expect wet weather conditions."] ↔
      ∃ f ∈ fs, ∃ w ∈ rain_conditions, containsL w (pyLower f.condition.toList) = true)
    ∧ (wet_section fs = ["Expect wet weather conditions."] ∨ wet_section fs = []) := by
  intro fs
  constructor
  · unfold wet_section
    cases hw : will_rain fs
    · simp only [Bool.false_eq_true, if_false]
      constructor
      · intro h
        exact absurd h (by simp)
      · intro hex
        have := (will_rain_iff fs).2 hex
        rw [this] at hw
        exact Bool.noConfusion hw
    · simp only [if_true]
      simp only [true_iff]
      exact (will_rain_iff fs).1 hw
  · unfold wet_section
    cases hw : will_rain fs
    · right
      simp
    · left
      simp

/-- C9 counterexample: the condition table, filtered to codes with a label
other than `"Unknown"`, has 23 entries — not the 22 the claim states. -/
theorem conditionsTable_known_count :
    (conditionsTable.filter (fun p => p.2 != "Unknown")).length = 23
    ∧ ¬((conditionsTable.filter (fun p => p.2 != "Unknown")).length = 22) := by
  constructor <;> decide

/-- C9 (amended): `get_condition` is a fixed total mapping given by a static
24-entry table of which 23 codes carry a label other than `"Unknown"` (code 0
is mapped to `"Unknown"` explicitly), and every integer code outside the table
maps to `"Unknown"`. -/
theorem get_condition_spec :
    (∀ c : Int, c ∉ conditionsTable.map Prod.fst → get_condition c = "Unknown")
    ∧ (conditionsTable.filter (fun p => p.2 != "Unknown")).length = 23
    ∧ conditionsTable.length = 24
    ∧ get_condition 0 = "Unknown" := by
  refine ⟨?_, by decide, by decide, by decide⟩
  intro c hc
  unfold get_condition
  rw [lookup_eq_none_of_not_mem conditionsTable c hc]
  rfl

/-- C9 witness: the out-of-table code 42 maps to `"Unknown"`. -/
theorem get_condition_spec_witness : get_condition 42 = "Unknown" :=
  get_condition_spec.1 42 (by decide)

/-- C10: `transform_forecast_data` is total on raw records with missing
fields, substituting zero defaults rather than skipping: missing time becomes
`""`, missing temperature renders `"0°C"`, missing wind speed `"0 km/h"`,
missing humidity `"0%"`, missing precipitation probability `"0"`, and a
missing weather code yields condition `"Unknown"`; consequently a record with
no temperature contributes `0` to the temperature aggregates of the summary
instead of being excluded. -/
theorem transform_defaults_spec : ∀ (rd : RawData) (gs : List ForeCastResponse),
    (rd.time = none → (transform_forecast_data rd).time = "")
    ∧ ((rd.values.getD emptyValues).temperature = none →
        (transform_forecast_data rd).temperature = "0°C"
        ∧ parseTemps (transform_forecast_data rd :: gs) = 0 :: parseTemps gs)
    ∧ ((rd.values.getD emptyValues).windSpeed = none →
        (transform_forecast_data rd).windSpeed = "0 km/h")
    ∧ ((rd.values.getD emptyValues).humidity = none →
        (transform_forecast_data rd).humidity = "0%")
    ∧ ((rd.values.getD emptyValues).precipitationProbability = none →
        (transform_forecast_data rd).precipitationProbability = "0")
    ∧ ((rd.values.getD emptyValues).weatherCode = none →
        (transform_forecast_data rd).condition = "Unknown") := by
  intro rd gs
  refine ⟨?_, ?_, ?_, ?_, ?_, ?_⟩
  · intro h
    unfold transform_forecast_data
    dsimp only
    rw [h]
    rfl
  · intro h
    have h1 : (transform_forecast_data rd).temperature = "0°C" := by
      unfold transform_forecast_data
      dsimp only
      rw [h]
      rfl
    refine ⟨h1, ?_⟩
    have h2 : parseTemp (transform_forecast_data rd) = some ((0 : ℕ) : ℚ) := by
      refine parseTemp_digits _ ['0'] 0 ?_ (by decide) (by decide) (by decide)
      rw [h1]
      decide
    unfold parseTemps
    rw [List.filterMap_cons, h2]
    norm_num
  · intro h
    unfold transform_forecast_data
    dsimp only
    rw [h]
    rfl
  · intro h
    unfold transform_forecast_data
    dsimp only
    rw [h]
    rfl
  · intro h
    unfold transform_forecast_data
    dsimp only
    rw [h]
    rfl
  · intro h
    unfold transform_forecast_data
    dsimp only
    rw [h]
    rfl

/-- C10 witness: a fully empty raw record renders a `"0°C"` temperature that
contributes `0` to the temperature aggregates. -/
theorem transform_defaults_spec_witness :
    (transform_forecast_data ⟨none, none⟩).temperature = "0°C"
    ∧ parseTemps [transform_forecast_data ⟨none, none⟩] = 0 :: parseTemps [] :=
  (transform_defaults_spec ⟨none, none⟩ []).2.1 rfl

/-! ## Helper lemmas: running `normalize_date` on symbolic phrases -/

theorem toList_mk (l : List Char) : (String.mk l).toList = l := rfl

theorem length_dropWhile_le' {p : Char → Bool} (l : List Char) :
    (l.dropWhile p).length ≤ l.length := by
  induction l with
  | nil => simp
  | cons a t ih =>
    rw [List.dropWhile_cons]
    by_cases hpa : p a = true
    · rw [if_pos hpa]
      exact le_trans ih (by simp)
    · rw [if_neg hpa]

theorem dropWhile_append_of_eq_self {p : Char → Bool} (l1 l2 : List Char)
    (h : l1.dropWhile p = l1) (hne : l1 ≠ []) :
    (l1 ++ l2).dropWhile p = l1 ++ l2 := by
  obtain ⟨a, t, rfl⟩ := List.exists_cons_of_ne_nil hne
  cases hpa : p a with
  | false => simp [List.dropWhile_cons, hpa]
  | true =>
    rw [List.dropWhile_cons, if_pos hpa] at h
    have hlen := congrArg List.length h
    have hle := length_dropWhile_le' (p := p) t
    simp at hlen
    omega

theorem digit_head_ne (c : Char) (hc : isDigitChar c = true) (l1 l2 : List Char)
    (a : Char) (ha : 58 ≤ a.toNat) : ¬(c :: l1 = a :: l2) := by
  intro habs
  injection habs with h1 _
  exact digit_ne_char c a hc ha h1

theorem pyStrip_append_self (l1 l2 : List Char)
    (h1 : (l1 ++ l2).dropWhile isSpaceChar = l1 ++ l2)
    (h2 : l2.reverse.dropWhile isSpaceChar = l2.reverse) (hne2 : l2 ≠ []) :
    pyStrip (l1 ++ l2) = l1 ++ l2 := by
  unfold pyStrip
  rw [h1, List.reverse_append]
  rw [dropWhile_append_of_eq_self l2.reverse l1.reverse h2 (by simpa using hne2)]
  rw [← List.reverse_append, List.reverse_reverse]

/-- Computing the `(\d+)\s+days?\s*time` match on a digit run followed by a
fixed tail. -/
theorem daysTimeMatch_append (ds : List Char) (hne : ds ≠ [])
    (hd : ∀ x ∈ ds, isDigitChar x = true) (tl : List Char)
    (hD : tl.takeWhile isDigitChar = []) (hE : tl.dropWhile isDigitChar = tl)
    (hF : (tl.takeWhile isSpaceChar).isEmpty = false)
    (hG : startsWithL ['d', 'a', 'y'] (tl.dropWhile isSpaceChar) = true)
    (hH : startsWithL ['t', 'i', 'm', 'e']
      ((if startsWithL ['s'] ((tl.dropWhile isSpaceChar).drop 3) then
          ((tl.dropWhile isSpaceChar).drop 3).drop 1
        else (tl.dropWhile isSpaceChar).drop 3).dropWhile isSpaceChar) = true) :
    daysTimeMatch (ds ++ tl) = some (digitsToNat ds) := by
  unfold daysTimeMatch
  rw [takeWhile_append_all tl hd, dropWhile_append_all tl hd, hD, hE, List.append_nil]
  have hdse : ds.isEmpty = false := by
    cases ds with
    | nil => exact absurd rfl hne
    | cons a t => rfl
  rw [if_neg (by rw [hdse]; exact Bool.noConfusion)]
  rw [if_neg (by rw [hF]; exact Bool.noConfusion)]
  rw [if_pos hG, if_pos hH]

/-- C7 counterexample: `" today ("` is not resolved to the reference date — the
`today` comparison happens before whitespace trimming, so the phrase falls all
the way through to the `UnsupportedFormat` failure. -/
theorem today_whitespace_counterexample :
    normalize_date (" today ") ⟨2025, 10, 12⟩ = .error ("Unsupported date format:  today ")
    ∧ ¬normalize_date (" today ") ⟨2025, 10, 12⟩ = .ok (isoformat ⟨2025, 10, 12⟩) := by
  constructor <;> decide

/-- C7 (amended): the empty string (exactly) and case variants of the literal
`today` without surrounding whitespace resolve to the reference date; after
trimming and lowercasing, `tomorrow` resolves to the reference date plus one
day and `next tomorrow` / `the day after tomorrow` to the reference date plus
two days.  The `today` step is applied before trimming, so `today` surrounded
by whitespace is not resolved by it. -/
theorem keyword_resolution_spec : ∀ (s : String) (ref : PyDate),
    (normalize_date ("") ref = .ok (isoformat ref))
    ∧ (pyLower s.toList = "today".toList → normalize_date s ref = .ok (isoformat ref))
    ∧ (s.toList ≠ [] → pyLower s.toList ≠ "today".toList →
        pyLower (pyStrip s.toList) = "tomorrow".toList →
        normalize_date s ref = .ok (isoformat (addDays ref 1)))
    ∧ (s.toList ≠ [] → pyLower s.toList ≠ "today".toList →
        (pyLower (pyStrip s.toList) = "next tomorrow".toList ∨
          pyLower (pyStrip s.toList) = "the day after tomorrow".toList) →
        normalize_date s ref = .ok (isoformat (addDays ref 2))) := by
  intro s ref
  have hemp : ∀ (h : s.toList ≠ []), s.toList.isEmpty = false := by
    intro h
    cases hs : s.toList with
    | nil => exact absurd hs h
    | cons a t => rfl
  refine ⟨rfl, ?_, ?_, ?_⟩
  · intro h
    unfold normalize_date
    rw [if_pos (by rw [h]; simp)]
  · intro h1 h2 h3
    unfold normalize_date
    rw [if_neg (by rw [hemp h1]; simpa using h2)]
    unfold normalizeText
    rw [h3, if_pos rfl]
  · intro h1 h2 h3
    unfold normalize_date
    rw [if_neg (by rw [hemp h1]; simpa using h2)]
    unfold normalizeText
    rcases h3 with h3 | h3 <;>
      rw [h3, if_neg (by decide), if_pos (by decide)]

/-- C7 witness: a case variant of `today` resolves to the reference date. -/
theorem keyword_resolution_spec_witness :
    normalize_date ("TODAY") ⟨2025, 1, 1⟩ = .ok (isoformat ⟨2025, 1, 1⟩) :=
  (keyword_resolution_spec ("TODAY") ⟨2025, 1, 1⟩).2.1 (by decide)

/-- Facts about the seven weekday names, checked by evaluation. -/
theorem weekday_name_facts : ∀ t ∈ weekdays,
    t ≠ "tomorrow".toList ∧ t ≠ "next tomorrow".toList
    ∧ t ≠ "the day after tomorrow".toList ∧ daysTimeMatch t = none
    ∧ weekdays.indexOf t < 7
    ∧ (String.mk t).toList.isEmpty = false
    ∧ pyLower (String.mk t).toList ≠ "today".toList
    ∧ pyLower (pyStrip (String.mk t).toList) = t := by decide

/-- On a weekday name, `normalizeText` reaches the weekday branch. -/
theorem normalizeText_weekday (text : List Char) (ht : text ∈ weekdays) (ref : PyDate)
    (orig : String) :
    normalizeText text ref orig =
      (if ((weekdays.indexOf text : Int) - (weekdayOf ref : Int)) % 7 > 5 then
        .error horizonMsg
       else
        .ok (isoformat (addDays ref
          (((weekdays.indexOf text : Int) - (weekdayOf ref : Int)) % 7).toNat))) := by
  have hc := weekday_name_facts text ht
  unfold normalizeText
  rw [if_neg hc.1]
  rw [if_neg (by simp; exact ⟨by simpa using hc.2.1, by simpa using hc.2.2.1⟩)]
  rw [hc.2.2.2.1]
  rw [if_pos ht]

/-- On a weekday name, `normalize_date` passes the phrase through unchanged. -/
theorem normalize_date_weekday (w : List Char) (hw : w ∈ weekdays) (ref : PyDate) :
    normalize_date (String.mk w) ref = normalizeText w ref (String.mk w) := by
  have hc := weekday_name_facts w hw
  unfold normalize_date
  rw [if_neg (by rw [hc.2.2.2.2.2.1]; simpa using hc.2.2.2.2.2.2.1)]
  rw [hc.2.2.2.2.2.2.2]

/-- C4: a weekday-name phrase resolves to the next occurrence of that weekday
at or after the reference date, at an offset of
`(targetWeekdayIndex − referenceWeekdayIndex) mod 7` days (offset 0 when the
phrase names the weekday of the reference date itself), failing with
`HorizonExceeded` exactly when that offset exceeds 5. -/
theorem weekday_resolution_spec : ∀ w ∈ weekdays, ∀ ref : PyDate, ValidDate ref →
    (normalize_date (String.mk w) ref =
      (if ((weekdays.indexOf w : Int) - (weekdayOf ref : Int)) % 7 > 5 then
        .error horizonMsg
       else
        .ok (isoformat (addDays ref
          (((weekdays.indexOf w : Int) - (weekdayOf ref : Int)) % 7).toNat))))
    ∧ weekdayOf (addDays ref (((weekdays.indexOf w : Int) - (weekdayOf ref : Int)) % 7).toNat)
        = weekdays.indexOf w
    ∧ (0 : Int) ≤ ((weekdays.indexOf w : Int) - (weekdayOf ref : Int)) % 7
    ∧ ((weekdays.indexOf w : Int) - (weekdayOf ref : Int)) % 7 < 7
    ∧ (weekdays.indexOf w = weekdayOf ref →
        ((weekdays.indexOf w : Int) - (weekdayOf ref : Int)) % 7 = 0) := by
  intro w hw ref hv
  have hwd : weekdayOf ref < 7 := Nat.mod_lt _ (by norm_num)
  have hidx : weekdays.indexOf w < 7 := (weekday_name_facts w hw).2.2.2.2.1
  refine ⟨(normalize_date_weekday w hw ref).trans (normalizeText_weekday w hw ref _),
    ?_, ?_, ?_, ?_⟩
  · rw [weekday_addDays hv]
    omega
  · omega
  · omega
  · intro h
    omega

/-- A phrase starting with a digit passes steps 1–3 of `normalize_date`
untouched (non-empty, not `today`/`tomorrow` variants, lower/strip stable). -/
theorem normalize_date_digit_phrase (c : Char) (rest : List Char) (ref : PyDate)
    (hc : isDigitChar c = true) (hd : ∀ x ∈ c :: rest, isDigitChar x = true)
    (tl : List Char) (hlow : pyLower tl = tl)
    (hstr : tl.reverse.dropWhile isSpaceChar = tl.reverse) (hne2 : tl ≠ []) :
    normalize_date (String.mk ((c :: rest) ++ tl)) ref =
      normalizeText ((c :: rest) ++ tl) ref (String.mk ((c :: rest) ++ tl)) := by
  have h1 : pyLower ((c :: rest) ++ tl) = (c :: rest) ++ tl := by
    unfold pyLower at hlow ⊢
    rw [List.map_append, map_toLower_digits hd, hlow]
  have h2 : pyStrip ((c :: rest) ++ tl) = (c :: rest) ++ tl := by
    apply pyStrip_append_self
    · rw [List.cons_append, List.dropWhile_cons, digit_not_space c hc]
      simp
    · exact hstr
    · exact hne2
  unfold normalize_date
  rw [toList_mk]
  rw [if_neg ?hcond]
  · rw [h2, h1]
  case hcond =>
    intro habs
    simp only [List.cons_append, List.isEmpty_cons, Bool.false_or,
      decide_eq_true_eq] at habs
    rw [← List.cons_append, h1, List.cons_append] at habs
    rw [show "today".toList = 't' :: "oday".toList from rfl] at habs
    exact digit_head_ne c hc _ _ 't' (by decide) habs

/-- A phrase starting with a digit reaches the `days time` pattern check of
the resolution order; if that matches, the result is decided by the horizon
test. -/
theorem normalizeText_digit_phrase (c : Char) (rest : List Char) (ref : PyDate)
    (orig : String) (hc : isDigitChar c = true) (tl : List Char) (n : Nat)
    (hmatch : daysTimeMatch ((c :: rest) ++ tl) = some n) :
    normalizeText ((c :: rest) ++ tl) ref orig =
      (if n > 5 then .error horizonMsg else .ok (isoformat (addDays ref n))) := by
  unfold normalizeText
  rw [if_neg ?h1, if_neg ?h2, hmatch]
  case h1 =>
    intro habs
    rw [List.cons_append] at habs
    rw [show "tomorrow".toList = 't' :: "omorrow".toList from rfl] at habs
    exact digit_head_ne c hc _ _ 't' (by decide) habs
  case h2 =>
    simp only [Bool.or_eq_true, decide_eq_true_eq, not_or]
    constructor
    · intro habs
      rw [List.cons_append] at habs
      rw [show "next tomorrow".toList = 'n' :: "ext tomorrow".toList from rfl] at habs
      exact digit_head_ne c hc _ _ 'n' (by decide) habs
    · intro habs
      rw [List.cons_append] at habs
      rw [show "the day after tomorrow".toList = 't' :: "he day after tomorrow".toList
        from rfl] at habs
      exact digit_head_ne c hc _ _ 't' (by decide) habs

/-- C3: a phrase of the form `N day(s) time` — digits, a space, `day`, an optional
trailing `s`, optional whitespace, then `time` — resolves to the reference
date plus `N` days when `N ≤ 5`, and fails with `HorizonExceeded` when
`N > 5`; adding `N` days advances the day count by exactly `N`. -/
theorem days_time_resolution_spec : ∀ (ds : List Char), ds ≠ [] →
    (∀ c ∈ ds, isDigitChar c = true) → ∀ (hasS hasWs : Bool) (ref : PyDate),
    (normalize_date (String.mk (ds ++ ' ' :: ('d' :: 'a' :: 'y' ::
        (cond hasS ['s'] [] ++ cond hasWs [' '] [] ++ ['t', 'i', 'm', 'e'])))) ref =
      (if digitsToNat ds > 5 then Except.error horizonMsg
       else Except.ok (isoformat (addDays ref (digitsToNat ds)))))
    ∧ (ValidDate ref →
        dayNumber (addDays ref (digitsToNat ds)) = dayNumber ref + digitsToNat ds) := by
  intro ds hne hd hasS hasWs ref
  refine ⟨?_, fun hv => dayNumber_addDays hv _⟩
  obtain ⟨c, rest, rfl⟩ := List.exists_cons_of_ne_nil hne
  have hc : isDigitChar c = true := hd c (by simp)
  cases hasS <;> cases hasWs <;>
  · dsimp only [cond, List.nil_append, List.cons_append]
    rw [show ∀ l : List Char, c :: (rest ++ l) = (c :: rest) ++ l from fun l => rfl]
    rw [normalize_date_digit_phrase c rest ref hc hd _ (by decide) (by decide) (by decide)]
    rw [normalizeText_digit_phrase c rest ref _ hc _ (digitsToNat (c :: rest))
      (daysTimeMatch_append (c :: rest) (by simp) hd _ (by decide) (by decide) (by decide)
        (by decide) (by decide))]

/-- C3 witness: the spec examples — `3 days time` resolves to the reference
date plus three days; `6 days time` fails with `HorizonExceeded`. -/
theorem days_time_resolution_spec_witness :
    normalize_date ("3 days time") ⟨2025, 10, 12⟩ = Except.ok ("2025-10-15")
    ∧ normalize_date ("6 days time") ⟨2025, 10, 12⟩ = Except.error horizonMsg := by
  have h3 : normalize_date ("3 days time") ⟨2025, 10, 12⟩ =
      (if digitsToNat ['3'] > 5 then Except.error horizonMsg
       else Except.ok (isoformat (addDays ⟨2025, 10, 12⟩ (digitsToNat ['3'])))) :=
    (days_time_resolution_spec ['3'] (by decide) (by decide) true true ⟨2025, 10, 12⟩).1
  have h6 : normalize_date ("6 days time") ⟨2025, 10, 12⟩ =
      (if digitsToNat ['6'] > 5 then Except.error horizonMsg
       else Except.ok (isoformat (addDays ⟨2025, 10, 12⟩ (digitsToNat ['6'])))) :=
    (days_time_resolution_spec ['6'] (by decide) (by decide) true true ⟨2025, 10, 12⟩).1
  rw [h3, h6]
  constructor <;> decide

/-! ## Helper lemmas: the strict-date branch -/

theorem pyLower_eq_self_of {l : List Char} (h : ∀ x ∈ l, Char.toLower x = x) :
    pyLower l = l := by
  unfold pyLower
  induction l with
  | nil => rfl
  | cons a t ih =>
    simp only [List.map_cons, h a (by simp)]
    rw [ih (fun x hx => h x (by simp [hx]))]

theorem digit_head_ne_str (c : Char) (hc : isDigitChar c = true) (l1 : List Char)
    (s : String) (a : Char) (l2 : List Char) (hs : s.toList = a :: l2)
    (ha : 58 ≤ a.toNat) : ¬(c :: l1 = s.toList) := by
  rw [hs]
  exact digit_head_ne c hc l1 l2 a ha

theorem pad4_digits (n : Nat) : ∀ x ∈ pad4 n, isDigitChar x = true := by
  intro x hx
  simp only [pad4, List.mem_cons, List.not_mem_nil, or_false] at hx
  rcases hx with rfl | rfl | rfl | rfl <;> exact digitChar_mod_digit _

theorem pad2_digits (n : Nat) : ∀ x ∈ pad2 n, isDigitChar x = true := by
  intro x hx
  simp only [pad2, List.mem_cons, List.not_mem_nil, or_false] at hx
  rcases hx with rfl | rfl <;> exact digitChar_mod_digit _

theorem isoChars_stable : ∀ (d : PyDate) (x : Char), x ∈ isoChars d →
    Char.toLower x = x ∧ isSpaceChar x = false := by
  intro d x hx
  have hiso : isoChars d = [digitChar (d.year / 1000 % 10), digitChar (d.year / 100 % 10),
      digitChar (d.year / 10 % 10), digitChar (d.year % 10), '-',
      digitChar (d.month / 10 % 10), digitChar (d.month % 10), '-',
      digitChar (d.day / 10 % 10), digitChar (d.day % 10)] := rfl
  rw [hiso] at hx
  simp only [List.mem_cons, List.not_mem_nil, or_false] at hx
  rcases hx with rfl | rfl | rfl | rfl | rfl | rfl | rfl | rfl | rfl | rfl <;>
    first
      | exact ⟨digitChar_mod_toLower _, digitChar_mod_space _⟩
      | exact ⟨by decide, by decide⟩

theorem digitsToNat_pad4 (n : Nat) (h : n ≤ 9999) : digitsToNat (pad4 n) = n := by
  unfold digitsToNat pad4
  simp only [List.foldl_cons, List.foldl_nil, digitChar_mod_toNat]
  omega

theorem digitsToNat_pad2 (n : Nat) (h : n ≤ 99) : digitsToNat (pad2 n) = n := by
  unfold digitsToNat pad2
  simp only [List.foldl_cons, List.foldl_nil, digitChar_mod_toNat]
  omega

/-- Parsing an `isoformat` rendering of a valid date gives the date back. -/
theorem pyStrptimeDate_isoChars (d : PyDate) (hv : ValidDate d) (hy : d.year ≤ 9999) :
    pyStrptimeDate (isoChars d) = some d := by
  obtain ⟨h1, h2, h3, h4, h5⟩ := hv
  have hm99 : d.month ≤ 99 := by omega
  have hd99 : d.day ≤ 99 := by
    have := dim_le_31 (isLeap d.year) d.month (by omega)
    unfold daysInMonth at h5
    omega
  unfold pyStrptimeDate isoChars
  rw [takeWhile_append_all _ (pad4_digits d.year),
    dropWhile_append_all _ (pad4_digits d.year)]
  rw [show List.takeWhile isDigitChar ('-' :: (pad2 d.month ++ '-' :: pad2 d.day)) = []
    from rfl]
  rw [show List.dropWhile isDigitChar ('-' :: (pad2 d.month ++ '-' :: pad2 d.day))
      = '-' :: (pad2 d.month ++ '-' :: pad2 d.day) from rfl]
  rw [List.append_nil]
  rw [if_pos ⟨rfl, rfl⟩]
  rw [show ('-' :: (pad2 d.month ++ '-' :: pad2 d.day)).drop 1
      = pad2 d.month ++ '-' :: pad2 d.day from rfl]
  dsimp only
  rw [takeWhile_append_all _ (pad2_digits d.month),
    dropWhile_append_all _ (pad2_digits d.month)]
  rw [show List.takeWhile isDigitChar ('-' :: pad2 d.day) = [] from rfl]
  rw [show List.dropWhile isDigitChar ('-' :: pad2 d.day) = '-' :: pad2 d.day from rfl]
  rw [List.append_nil]
  rw [if_pos ⟨⟨by simp [pad2], by simp [pad2]⟩, rfl⟩]
  rw [show ('-' :: pad2 d.day).drop 1 = pad2 d.day from rfl]
  rw [takeWhile_eq_self_of_all (pad2_digits d.day),
    dropWhile_eq_nil_of_all (pad2_digits d.day)]
  rw [if_pos ⟨by simp [pad2], by simp [pad2], rfl⟩]
  rw [digitsToNat_pad4 d.year hy, digitsToNat_pad2 d.month hm99,
    digitsToNat_pad2 d.day hd99]
  rw [if_pos ⟨h1, h2, h3, h4, h5⟩]

/-- The `days time` pattern never fires on an `isoformat` literal. -/
theorem daysTimeMatch_isoChars (d : PyDate) : daysTimeMatch (isoChars d) = none := by
  unfold daysTimeMatch isoChars
  rw [takeWhile_append_all _ (pad4_digits d.year),
    dropWhile_append_all _ (pad4_digits d.year)]
  rw [show List.takeWhile isDigitChar ('-' :: (pad2 d.month ++ '-' :: pad2 d.day)) = []
    from rfl]
  rw [show List.dropWhile isDigitChar ('-' :: (pad2 d.month ++ '-' :: pad2 d.day))
      = '-' :: (pad2 d.month ++ '-' :: pad2 d.day) from rfl]
  rw [List.append_nil]
  rw [if_neg (by rw [show (pad4 d.year).isEmpty = false from rfl]; exact Bool.noConfusion)]
  rw [if_pos (by rw [show List.takeWhile isSpaceChar
    ('-' :: (pad2 d.month ++ '-' :: pad2 d.day)) = [] from rfl]; rfl)]

/-- An `isoformat` literal is not a weekday name (it starts with a digit). -/
theorem isoChars_not_weekday (d : PyDate) : isoChars d ∉ weekdays := by
  intro hmem
  have hiso : isoChars d = digitChar (d.year / 1000 % 10) ::
      (digitChar (d.year / 100 % 10) :: digitChar (d.year / 10 % 10)
        :: digitChar (d.year % 10) :: '-' :: (pad2 d.month ++ '-' :: pad2 d.day)) := rfl
  simp only [weekdays, List.mem_cons, List.not_mem_nil, or_false] at hmem
  rcases hmem with h | h | h | h | h | h | h <;> rw [hiso] at h
  · exact digit_head_ne_str _ (digitChar_mod_digit _) _ ("monday") 'm' _ rfl (by decide) h
  · exact digit_head_ne_str _ (digitChar_mod_digit _) _ ("tuesday") 't' _ rfl (by decide) h
  · exact digit_head_ne_str _ (digitChar_mod_digit _) _ ("wednesday") 'w' _ rfl (by decide) h
  · exact digit_head_ne_str _ (digitChar_mod_digit _) _ ("thursday") 't' _ rfl (by decide) h
  · exact digit_head_ne_str _ (digitChar_mod_digit _) _ ("friday") 'f' _ rfl (by decide) h
  · exact digit_head_ne_str _ (digitChar_mod_digit _) _ ("saturday") 's' _ rfl (by decide) h
  · exact digit_head_ne_str _ (digitChar_mod_digit _) _ ("sunday") 's' _ rfl (by decide) h

/-- C2 counterexample: `"2024-1-1"` is not a strict `YYYY-MM-DD` literal, yet
normalization neither fails with `UnsupportedFormat` nor returns it as-is —
it succeeds and zero-pads the result. -/
theorem strict_date_counterexample :
    normalize_date ("2024-1-1") ⟨2025, 10, 12⟩ = Except.ok ("2024-01-01")
    ∧ "2024-1-1" ≠ "2024-01-01" := by
  constructor <;> decide

/-- C2 (amended): when a phrase matches none of the earlier resolution steps,
the outcome is decided by the `%Y-%m-%d` parse — which accepts a 4-digit year
with 1- or 2-digit month and day denoting a valid calendar date, returning it
in zero-padded ISO form with no horizon check — and every other phrase fails
with `UnsupportedFormat` carrying the original phrase.  In particular every
strict `YYYY-MM-DD` rendering of a valid date is returned exactly as-is,
regardless of its distance from the reference date, including past dates. -/
theorem strict_date_spec : ∀ (s : String) (ref : PyDate),
    (s.toList ≠ [] → pyLower s.toList ≠ "today".toList →
      pyLower (pyStrip s.toList) ≠ "tomorrow".toList →
      pyLower (pyStrip s.toList) ≠ "next tomorrow".toList →
      pyLower (pyStrip s.toList) ≠ "the day after tomorrow".toList →
      daysTimeMatch (pyLower (pyStrip s.toList)) = none →
      pyLower (pyStrip s.toList) ∉ weekdays →
      normalize_date s ref =
        (match pyStrptimeDate (pyLower (pyStrip s.toList)) with
         | some d => Except.ok (isoformat d)
         | none => Except.error ("Unsupported date format: " ++ s)))
    ∧ (∀ d : PyDate, ValidDate d → d.year ≤ 9999 →
        normalize_date (isoformat d) ref = Except.ok (isoformat d)) := by
  intro s ref
  constructor
  · intro h1 h2 h3 h4 h5 h6 h7
    have hemp : s.toList.isEmpty = false := by
      cases hs : s.toList with
      | nil => exact absurd hs h1
      | cons a t => rfl
    unfold normalize_date
    rw [if_neg (by rw [hemp]; simpa using h2)]
    unfold normalizeText
    rw [if_neg h3]
    rw [if_neg (by simp only [Bool.or_eq_true, decide_eq_true_eq, not_or]; exact ⟨h4, h5⟩)]
    rw [h6]
    rw [if_neg h7]
  · intro d hv hy
    have hdig : isDigitChar (digitChar (d.year / 1000 % 10)) = true := digitChar_mod_digit _
    have hiso : isoChars d = digitChar (d.year / 1000 % 10) ::
        (digitChar (d.year / 100 % 10) :: digitChar (d.year / 10 % 10)
          :: digitChar (d.year % 10) :: '-' :: (pad2 d.month ++ '-' :: pad2 d.day)) := rfl
    have hlow : pyLower (isoChars d) = isoChars d :=
      pyLower_eq_self_of (fun x hx => (isoChars_stable d x hx).1)
    have hstrip : pyStrip (isoChars d) = isoChars d :=
      pyStrip_of_no_space (fun x hx => (isoChars_stable d x hx).2)
    unfold normalize_date
    rw [show (isoformat d).toList = isoChars d from rfl]
    rw [if_neg ?hcond]
    case hcond =>
      intro habs
      simp only [Bool.or_eq_true, decide_eq_true_eq] at habs
      rcases habs with habs | habs
      · rw [show (isoChars d).isEmpty = false from by rw [hiso]; rfl] at habs
        exact Bool.noConfusion habs
      · rw [hlow, hiso] at habs
        exact digit_head_ne_str _ hdig _ ("today") 't' _ rfl (by decide) habs
    rw [hstrip, hlow]
    unfold normalizeText
    rw [if_neg (by
      rw [hiso]
      exact digit_head_ne_str _ hdig _ ("tomorrow") 't' _ rfl (by decide))]
    rw [if_neg (by
      simp only [Bool.or_eq_true, decide_eq_true_eq, not_or]
      constructor
      · rw [hiso]
        exact digit_head_ne_str _ hdig _ ("next tomorrow") 'n' _ rfl (by decide)
      · rw [hiso]
        exact digit_head_ne_str _ hdig _ ("the day after tomorrow") 't' _ rfl (by decide))]
    rw [daysTimeMatch_isoChars d]
    rw [if_neg (isoChars_not_weekday d)]
    rw [pyStrptimeDate_isoChars d hv hy]

/-- C2 witness: the spec example — `"2024-01-01"` is returned unchanged even
though it is far in the past relative to the reference date. -/
theorem strict_date_spec_witness :
    normalize_date ("2024-01-01") ⟨2025, 10, 12⟩ = Except.ok ("2024-01-01") := by
  have h : normalize_date (isoformat ⟨2024, 1, 1⟩) ⟨2025, 10, 12⟩ =
      Except.ok (isoformat ⟨2024, 1, 1⟩) :=
    (strict_date_spec ("x") ⟨2025, 10, 12⟩).2 ⟨2024, 1, 1⟩ (by decide) (by decide)
  exact h

/-- C4 witness: `tuesday` asked on a Tuesday (2025-10-14) resolves to the
reference date itself, not a week later. -/
theorem weekday_resolution_spec_witness :
    normalize_date ("tuesday") ⟨2025, 10, 14⟩ = .ok ("2025-10-14") := by
  have h : normalize_date ("tuesday") ⟨2025, 10, 14⟩ =
      (if ((weekdays.indexOf ("tuesday").toList : Int)
          - (weekdayOf ⟨2025, 10, 14⟩ : Int)) % 7 > 5 then
        .error horizonMsg
       else
        .ok (isoformat (addDays ⟨2025, 10, 14⟩
          (((weekdays.indexOf ("tuesday").toList : Int)
            - (weekdayOf ⟨2025, 10, 14⟩ : Int)) % 7).toNat))) :=
    (weekday_resolution_spec ("tuesday").toList (by decide) ⟨2025, 10, 14⟩ (by decide)).1
  rw [h]
  decide

end WeatherAgent
